import Mathlib

/-
Verification of the CRSF frame decoder in crsf_receiver.py.

The decoder state is the set of mutable attributes of `CRSFReceiver` that the
decode path reads or writes (buffer, channels, link statistics, counters).
Serial-port handling (`open`/`close`, `self.serial`) is external I/O and is
modelled by passing the bytes that a read would deliver as an explicit
argument.  All byte values delivered by a serial read are naturals in
[0, 255]; Python integers that can only ever hold such values are embedded
as `Nat`, while `snr`, which is assigned a `struct.unpack('b', ...)` result,
is embedded as `Int`.
-/

/-- The address whitelist `[addr.value for addr in CRSFAddress]` built at
crsf_receiver.py line 223 from the `CRSFAddress` enum (lines 35-49).
Python `IntEnum` iteration skips alias members: `FLIGHT_CONTROLLER = 0xC8`
duplicates `USB = 0xC8` and is not yielded, so the list has 12 entries
(13 declared names, 12 distinct values); membership tests are unaffected. -/
def whitelist : List Nat :=
  [0x00, 0xC8, 0x80, 0x8A, 0xC0, 0xC2, 0xC4, 0xCA, 0xCC, 0xEA, 0xEC, 0xEE]

/-- The mutable decoder state initialised in `CRSFReceiver.__init__`
(crsf_receiver.py lines 76-92). -/
structure CRSFState where
  buffer : List Nat
  channels : List Nat
  rssi_1 : Nat
  rssi_2 : Nat
  link_quality : Nat
  snr : Int
  active_antenna : Nat
  rf_mode : Nat
  tx_power : Nat
  frame_count : Nat
  error_count : Nat
deriving DecidableEq

/-- The freshly constructed decoder: empty buffer, 16 zero channels, all
link statistics and counters zero (`__init__`, lines 76-92). -/
def initState : CRSFState where
  buffer := []
  channels := List.replicate 16 0
  rssi_1 := 0
  rssi_2 := 0
  link_quality := 0
  snr := 0
  active_antenna := 0
  rf_mode := 0
  tx_power := 0
  frame_count := 0
  error_count := 0

/-- One shift-and-conditionally-xor step of `_calculate_crc`'s inner loop
(crsf_receiver.py lines 131-135). -/
def crcShift (crc : Nat) : Nat :=
  if crc &&& 0x80 ≠ 0 then (crc <<< 1) ^^^ 0xD5 else crc <<< 1

/-- One byte of `_calculate_crc`: xor the byte in, run 8 shift steps, then
mask to 8 bits -- the mask is applied only after the 8 shifts, exactly as in
the source (lines 129-136). -/
def crcByte (crc b : Nat) : Nat :=
  (crcShift^[8] (crc ^^^ b)) &&& 0xFF

/-- `CRSFReceiver._calculate_crc` (crsf_receiver.py lines 118-137):
CRC8 with polynomial 0xD5 over a byte sequence, accumulator starting at 0. -/
def crc8 (data : List Nat) : Nat := data.foldl crcByte 0

/-- `int.from_bytes(bs, byteorder='little')`. -/
def lebytes (bs : List Nat) : Nat := bs.foldr (fun b acc => b + 256 * acc) 0

/-- `CRSFReceiver._parse_rc_channels` (crsf_receiver.py lines 139-154).
`self.channels` has length 16 at all times (set in `__init__` and rewritten
index by index for `i in range(16)`), so the assignment loop is modelled by
rebuilding the 16-element list. -/
def parse_rc_channels (payload : List Nat) (s : CRSFState) : CRSFState :=
  if payload.length < 22 then s
  else
    let bits := lebytes (payload.take 22)
    {s with channels := (List.range 16).map (fun i => (bits >>> (i * 11)) &&& 0x7FF)}

/-- `struct.unpack('b', bytes([b]))[0]`: reinterpret a byte as a signed
two's-complement 8-bit integer (crsf_receiver.py line 169). -/
def toSigned8 (b : Nat) : Int := if b < 128 then (b : Int) else (b : Int) - 256

/-- `CRSFReceiver._parse_link_statistics` (crsf_receiver.py lines 156-172).
Bytes 0-6 are stored raw; only byte 3 (snr) is sign-reinterpreted. -/
def parse_link_statistics (payload : List Nat) (s : CRSFState) : CRSFState :=
  if payload.length < 10 then s
  else
    {s with
      rssi_1 := payload.getD 0 0
      rssi_2 := payload.getD 1 0
      link_quality := payload.getD 2 0
      snr := toSigned8 (payload.getD 3 0)
      active_antenna := payload.getD 4 0
      rf_mode := payload.getD 5 0
      tx_power := payload.getD 6 0}

/-- `CRSFReceiver._parse_frame` (crsf_receiver.py lines 174-203):
frames shorter than 4 bytes are ignored; the CRC is recomputed over
`frame[2:-1]` and compared with `frame[-1]`; on mismatch only `error_count`
is bumped; on match `frame_count` is bumped and the payload `frame[3:-1]`
is dispatched on the type byte `frame[2]` (0x16 RC_CHANNELS_PACKED,
0x14 LINK_STATISTICS, anything else ignored). -/
def parse_frame (frame : List Nat) (s : CRSFState) : CRSFState :=
  if frame.length < 4 then s
  else
    if frame.getLastD 0 ≠ crc8 ((frame.drop 2).dropLast) then
      {s with error_count := s.error_count + 1}
    else
      let s1 := {s with frame_count := s.frame_count + 1}
      if frame.getD 2 0 = 0x16 then parse_rc_channels ((frame.drop 3).dropLast) s1
      else if frame.getD 2 0 = 0x14 then parse_link_statistics ((frame.drop 3).dropLast) s1
      else s1

/-- The scan loop of `CRSFReceiver.read_frame` (crsf_receiver.py lines
221-246): while at least 4 bytes are buffered, pop one byte if the head is
not a whitelisted address or the declared length exceeds
`CRSF_MAX_PACKET_SIZE = 64`; break if the buffer is shorter than the
declared length + 2; otherwise slice the frame off the front, parse it and
return True.  Every iteration that neither returns nor breaks discards one
buffered byte, so the number of iterations is bounded by the buffer length;
`fuel` makes that bound explicit for structural recursion, and `read_loop`
below instantiates it (fuel-invariance is proved in `read_loop_fuel_congr`). -/
def read_loop_fuel : Nat → CRSFState → CRSFState × Bool
  | 0, s => (s, false)
  | fuel + 1, s =>
    if 4 ≤ s.buffer.length then
      if s.buffer.getD 0 0 ∈ whitelist then
        if 64 < s.buffer.getD 1 0 then
          read_loop_fuel fuel {s with buffer := s.buffer.tail}
        else if s.buffer.length < s.buffer.getD 1 0 + 2 then
          (s, false)
        else
          (parse_frame (s.buffer.take (s.buffer.getD 1 0 + 2))
            {s with buffer := s.buffer.drop (s.buffer.getD 1 0 + 2)}, true)
      else
        read_loop_fuel fuel {s with buffer := s.buffer.tail}
    else
      (s, false)

/-- The scan loop of `read_frame` run to completion on the current buffer. -/
def read_loop (s : CRSFState) : CRSFState × Bool := read_loop_fuel s.buffer.length s

/-- `self.buffer.extend(data)` (crsf_receiver.py line 218): append freshly
read serial bytes to the buffer. -/
def feed (data : List Nat) (s : CRSFState) : CRSFState :=
  {s with buffer := s.buffer ++ data}

/-- One call of `CRSFReceiver.read_frame` (crsf_receiver.py lines 205-246),
with the bytes delivered by the serial read passed explicitly. -/
def read_frame (data : List Nat) (s : CRSFState) : CRSFState × Bool :=
  read_loop (feed data s)

/-- Repeatedly calling `read_frame` (with no new input) until it returns
False.  Each True call strictly shrinks the buffer
(`read_loop_shrink`), so `s.buffer.length` calls always suffice;
`drain_fuel_congr` proves the fuel value is irrelevant beyond that bound. -/
def drain_fuel : Nat → CRSFState → CRSFState
  | 0, s => s
  | n + 1, s =>
    if (read_loop s).2 = true then drain_fuel n (read_loop s).1 else (read_loop s).1

/-- Drain the buffer: call `read_frame` until it makes no further progress. -/
def drainAll (s : CRSFState) : CRSFState := drain_fuel s.buffer.length s

/-- A sequence of `read_frame` calls, each fed its own chunk of input bytes
(a chunk may be empty: a call on which no serial data was waiting). -/
def runCalls (chunks : List (List Nat)) (s : CRSFState) : CRSFState :=
  chunks.foldl (fun t c => (read_frame c t).1) s

/-- Spec-side packing for the round-trip claim: channel value i occupies
11 bits starting at bit offset `i * 11` of a single packed integer. -/
def packChannels (vals : List Nat) : Nat :=
  vals.foldr (fun v acc => v + 2048 * acc) 0

/-- Spec-side serialization of a packed integer into its `k` little-endian
bytes. -/
def leBytesOfNat : Nat → Nat → List Nat
  | 0, _ => []
  | k + 1, n => (n &&& 0xFF) :: leBytesOfNat k (n >>> 8)

/-- Invariant used for the link-quality bound: every buffered byte is a
real byte (≤ 255) and `link_quality` is byte-bounded. -/
def LqInv (s : CRSFState) : Prop :=
  (∀ b ∈ s.buffer, b ≤ 255) ∧ s.link_quality ≤ 255

/-- Invariant for the channel bound: 16 channels, each an 11-bit value. -/
def ChInv (s : CRSFState) : Prop :=
  s.channels.length = 16 ∧ ∀ v ∈ s.channels, v ≤ 2047
lemma read_loop_fuel_congr : ∀ {n m : Nat} (s : CRSFState),
    s.buffer.length ≤ n → s.buffer.length ≤ m →
    read_loop_fuel n s = read_loop_fuel m s := by
  intro n
  induction n with
  | zero =>
    intro m s hn hm
    have h0 : s.buffer.length = 0 := Nat.le_zero.mp hn
    cases m with
    | zero => rfl
    | succ m =>
      simp only [read_loop_fuel, h0]
      norm_num
  | succ n ih =>
    intro m s hn hm
    cases m with
    | zero =>
      have h0 : s.buffer.length = 0 := Nat.le_zero.mp hm
      simp only [read_loop_fuel, h0]
      norm_num
    | succ m =>
      simp only [read_loop_fuel]
      by_cases h4 : 4 ≤ s.buffer.length
      · simp only [if_pos h4]
        have htail : ({s with buffer := s.buffer.tail} : CRSFState).buffer.length ≤ n := by
          simp [List.length_tail]; omega
        have htail2 : ({s with buffer := s.buffer.tail} : CRSFState).buffer.length ≤ m := by
          simp [List.length_tail]; omega
        by_cases hw : s.buffer.getD 0 0 ∈ whitelist
        · simp only [if_pos hw]
          by_cases hl : 64 < s.buffer.getD 1 0
          · simp only [if_pos hl]
            exact ih _ htail htail2
          · simp only [if_neg hl]
        · simp only [if_neg hw]
          exact ih _ htail htail2
      · simp only [if_neg h4]

lemma read_loop_fuel_eq (n : Nat) (s : CRSFState) (h : s.buffer.length ≤ n) :
    read_loop_fuel n s = read_loop s :=
  read_loop_fuel_congr s h le_rfl

/-- The one-step recurrence of the scan loop. -/
lemma read_loop_eq (s : CRSFState) :
    read_loop s =
      if 4 ≤ s.buffer.length then
        if s.buffer.getD 0 0 ∈ whitelist then
          if 64 < s.buffer.getD 1 0 then
            read_loop {s with buffer := s.buffer.tail}
          else if s.buffer.length < s.buffer.getD 1 0 + 2 then
            (s, false)
          else
            (parse_frame (s.buffer.take (s.buffer.getD 1 0 + 2))
              {s with buffer := s.buffer.drop (s.buffer.getD 1 0 + 2)}, true)
        else
          read_loop {s with buffer := s.buffer.tail}
      else
        (s, false) := by
  have h : read_loop s = read_loop_fuel (s.buffer.length + 1) s :=
    (read_loop_fuel_eq _ s (Nat.le_succ _)).symm
  rw [h]
  simp only [read_loop_fuel]
  by_cases h4 : 4 ≤ s.buffer.length
  · simp only [if_pos h4]
    have htail : ({s with buffer := s.buffer.tail} : CRSFState).buffer.length ≤ s.buffer.length := by
      simp [List.length_tail]
    rw [read_loop_fuel_eq _ _ htail]
  · simp only [if_neg h4]

lemma read_loop_of_short (s : CRSFState) (h : s.buffer.length < 4) :
    read_loop s = (s, false) := by
  rw [read_loop_eq, if_neg (Nat.not_le.mpr h)]

lemma parse_rc_channels_buf_comm (p : List Nat) (t : CRSFState) (b : List Nat) :
    parse_rc_channels p {t with buffer := b} = {parse_rc_channels p t with buffer := b} := by
  unfold parse_rc_channels
  split <;> rfl

lemma parse_link_statistics_buf_comm (p : List Nat) (t : CRSFState) (b : List Nat) :
    parse_link_statistics p {t with buffer := b} =
      {parse_link_statistics p t with buffer := b} := by
  unfold parse_link_statistics
  split <;> rfl

lemma parse_frame_buf_comm (f : List Nat) (t : CRSFState) (b : List Nat) :
    parse_frame f {t with buffer := b} = {parse_frame f t with buffer := b} := by
  unfold parse_frame parse_rc_channels parse_link_statistics
  repeat' split
  all_goals rfl

lemma parse_frame_buffer (f : List Nat) (t : CRSFState) :
    (parse_frame f t).buffer = t.buffer := by
  have h := parse_frame_buf_comm f t t.buffer
  have ht : ({t with buffer := t.buffer} : CRSFState) = t := rfl
  rw [ht] at h
  rw [h]

lemma parse_rc_channels_frame_count (p : List Nat) (t : CRSFState) :
    (parse_rc_channels p t).frame_count = t.frame_count := by
  unfold parse_rc_channels
  split <;> rfl

lemma parse_rc_channels_error_count (p : List Nat) (t : CRSFState) :
    (parse_rc_channels p t).error_count = t.error_count := by
  unfold parse_rc_channels
  split <;> rfl

lemma parse_link_statistics_frame_count (p : List Nat) (t : CRSFState) :
    (parse_link_statistics p t).frame_count = t.frame_count := by
  unfold parse_link_statistics
  split <;> rfl

lemma parse_link_statistics_error_count (p : List Nat) (t : CRSFState) :
    (parse_link_statistics p t).error_count = t.error_count := by
  unfold parse_link_statistics
  split <;> rfl

lemma parse_frame_counts (f : List Nat) (t : CRSFState) :
    (parse_frame f t).frame_count + (parse_frame f t).error_count ≤
      t.frame_count + t.error_count + 1 := by
  unfold parse_frame
  repeat' split
  all_goals
    simp [parse_rc_channels_frame_count, parse_rc_channels_error_count,
      parse_link_statistics_frame_count, parse_link_statistics_error_count]
  all_goals omega

lemma read_loop_shrink_aux : ∀ (n : Nat) (s : CRSFState), s.buffer.length ≤ n →
    (read_loop s).2 = true → (read_loop s).1.buffer.length < s.buffer.length := by
  intro n
  induction n with
  | zero =>
    intro s hle ht
    rw [read_loop_of_short s (by omega)] at ht
    simp at ht
  | succ n ih =>
    intro s hle ht
    rw [read_loop_eq] at ht ⊢
    by_cases h4 : 4 ≤ s.buffer.length
    · rw [if_pos h4] at ht ⊢
      by_cases hw : s.buffer.getD 0 0 ∈ whitelist
      · rw [if_pos hw] at ht ⊢
        by_cases hl : 64 < s.buffer.getD 1 0
        · rw [if_pos hl] at ht ⊢
          have hlen : ({s with buffer := s.buffer.tail} : CRSFState).buffer.length ≤ n := by
            simp [List.length_tail]; omega
          have := ih _ hlen ht
          simp only [List.length_tail] at this ⊢
          omega
        · rw [if_neg hl] at ht ⊢
          by_cases hs : s.buffer.length < s.buffer.getD 1 0 + 2
          · rw [if_pos hs] at ht; simp at ht
          · rw [if_neg hs] at ht ⊢
            simp only [parse_frame_buffer, List.length_drop]
            omega
      · rw [if_neg hw] at ht ⊢
        have hlen : ({s with buffer := s.buffer.tail} : CRSFState).buffer.length ≤ n := by
          simp [List.length_tail]; omega
        have := ih _ hlen ht
        simp only [List.length_tail] at this ⊢
        omega
    · rw [if_neg h4] at ht; simp at ht

lemma read_loop_shrink (s : CRSFState) (ht : (read_loop s).2 = true) :
    (read_loop s).1.buffer.length < s.buffer.length :=
  read_loop_shrink_aux s.buffer.length s le_rfl ht

lemma drain_fuel_congr : ∀ {n m : Nat} (s : CRSFState),
    s.buffer.length ≤ n → s.buffer.length ≤ m → drain_fuel n s = drain_fuel m s := by
  intro n
  induction n with
  | zero =>
    intro m s hn hm
    cases m with
    | zero => rfl
    | succ m =>
      have h := read_loop_of_short s (by omega)
      simp [drain_fuel, h]
  | succ n ih =>
    intro m s hn hm
    cases m with
    | zero =>
      have h := read_loop_of_short s (by omega)
      simp [drain_fuel, h]
    | succ m =>
      simp only [drain_fuel]
      by_cases ht : (read_loop s).2 = true
      · rw [if_pos ht, if_pos ht]
        have := read_loop_shrink s ht
        exact ih _ (by omega) (by omega)
      · rw [if_neg ht, if_neg ht]

lemma drainAll_eq (s : CRSFState) :
    drainAll s = if (read_loop s).2 = true then drainAll (read_loop s).1 else (read_loop s).1 := by
  have h1 : drainAll s = drain_fuel (s.buffer.length + 1) s :=
    drain_fuel_congr s le_rfl (Nat.le_succ _)
  rw [h1]
  simp only [drain_fuel]
  by_cases ht : (read_loop s).2 = true
  · rw [if_pos ht, if_pos ht]
    have := read_loop_shrink s ht
    exact drain_fuel_congr _ (by omega) le_rfl
  · rw [if_neg ht, if_neg ht]

lemma read_loop_counters_aux : ∀ (n : Nat) (s : CRSFState), s.buffer.length ≤ n →
    (read_loop s).1.frame_count + (read_loop s).1.error_count ≤
      s.frame_count + s.error_count + 1 := by
  intro n
  induction n with
  | zero =>
    intro s hle
    rw [read_loop_of_short s (by omega)]
    exact Nat.le_succ _
  | succ n ih =>
    intro s hle
    rw [read_loop_eq]
    by_cases h4 : 4 ≤ s.buffer.length
    · rw [if_pos h4]
      by_cases hw : s.buffer.getD 0 0 ∈ whitelist
      · rw [if_pos hw]
        by_cases hl : 64 < s.buffer.getD 1 0
        · rw [if_pos hl]
          have hlen : ({s with buffer := s.buffer.tail} : CRSFState).buffer.length ≤ n := by
            simp [List.length_tail]; omega
          have h := ih _ hlen
          simpa using h
        · rw [if_neg hl]
          by_cases hs : s.buffer.length < s.buffer.getD 1 0 + 2
          · rw [if_pos hs]; exact Nat.le_succ _
          · rw [if_neg hs]
            have h := parse_frame_counts (s.buffer.take (s.buffer.getD 1 0 + 2))
              {s with buffer := s.buffer.drop (s.buffer.getD 1 0 + 2)}
            simpa using h
      · rw [if_neg hw]
        have hlen : ({s with buffer := s.buffer.tail} : CRSFState).buffer.length ≤ n := by
          simp [List.length_tail]; omega
        have h := ih _ hlen
        simpa using h
    · rw [if_neg h4]; exact Nat.le_succ _

lemma read_loop_counters (s : CRSFState) :
    (read_loop s).1.frame_count + (read_loop s).1.error_count ≤
      s.frame_count + s.error_count + 1 :=
  read_loop_counters_aux s.buffer.length s le_rfl

/-- Claim C1: with at least 4 buffered bytes at the start of a decode attempt,
the scan loop discards exactly one leading byte and retries when the head byte
is not whitelisted or the declared length exceeds 64; stops consuming nothing
when fewer than declared-length + 2 bytes are buffered; otherwise removes
exactly declared-length + 2 bytes from the front as the candidate frame and
returns at once, so at most one frame (counted in frame_count or error_count)
is processed per call. -/
theorem C1_scan_step (s : CRSFState) (h4 : 4 ≤ s.buffer.length) :
    ((s.buffer.getD 0 0 ∉ whitelist ∨ 64 < s.buffer.getD 1 0) →
        read_loop s = read_loop {s with buffer := s.buffer.tail}) ∧
    (s.buffer.getD 0 0 ∈ whitelist → s.buffer.getD 1 0 ≤ 64 →
        s.buffer.length < s.buffer.getD 1 0 + 2 →
        read_loop s = (s, false)) ∧
    (s.buffer.getD 0 0 ∈ whitelist → s.buffer.getD 1 0 ≤ 64 →
        s.buffer.getD 1 0 + 2 ≤ s.buffer.length →
        read_loop s = (parse_frame (s.buffer.take (s.buffer.getD 1 0 + 2))
          {s with buffer := s.buffer.drop (s.buffer.getD 1 0 + 2)}, true)) ∧
    (read_loop s).1.frame_count + (read_loop s).1.error_count ≤
      s.frame_count + s.error_count + 1 := by
  refine ⟨?_, ?_, ?_, read_loop_counters s⟩
  · intro h
    rw [read_loop_eq, if_pos h4]
    by_cases hw : s.buffer.getD 0 0 ∈ whitelist
    · rcases h with h | h
      · exact absurd hw h
      · rw [if_pos hw, if_pos h]
    · rw [if_neg hw]
  · intro hw hl hs
    rw [read_loop_eq, if_pos h4, if_pos hw, if_neg (by omega), if_pos hs]
  · intro hw hl hs
    rw [read_loop_eq, if_pos h4, if_pos hw, if_neg (by omega), if_neg (by omega)]

theorem C1_witness :
    read_loop {initState with buffer := [1, 2, 3, 4]} =
      read_loop {initState with buffer := [2, 3, 4]} :=
  (C1_scan_step {initState with buffer := [1, 2, 3, 4]} (by decide)).1 (Or.inl (by decide))

/-- Claim C2: for every extracted frame of at least 4 bytes whose trailing
byte differs from the CRC8 (polynomial 0xD5) of the bytes from the type field
through the end of the payload, parsing increments error_count by exactly 1
and changes nothing else (frame_count, channels and all link-statistics
fields keep their values: the result is `s` with only error_count bumped). -/
theorem C2_crc_mismatch (frame : List Nat) (s : CRSFState) (h4 : 4 ≤ frame.length)
    (hcrc : frame.getLastD 0 ≠ crc8 ((frame.drop 2).dropLast)) :
    parse_frame frame s = {s with error_count := s.error_count + 1} := by
  unfold parse_frame
  rw [if_neg (by omega), if_pos hcrc]

theorem C2_witness :
    parse_frame [200, 2, 22, 0] initState =
      {initState with error_count := initState.error_count + 1} :=
  C2_crc_mismatch [200, 2, 22, 0] initState (by decide) (by decide)

/-- Claim C10: an extracted candidate frame whose declared length field is 0
or 1 (total size below 4 bytes) is consumed silently: its bytes are removed
from the buffer and the call returns True, but frame_count, error_count, the
channels and the link-statistics fields are all unchanged -- no CRC check and
no counter update happens. -/
theorem C10_tiny_frame (s : CRSFState) (h4 : 4 ≤ s.buffer.length)
    (hw : s.buffer.getD 0 0 ∈ whitelist) (hl : s.buffer.getD 1 0 ≤ 1) :
    read_loop s = ({s with buffer := s.buffer.drop (s.buffer.getD 1 0 + 2)}, true) := by
  rw [read_loop_eq, if_pos h4, if_pos hw, if_neg (by omega), if_neg (by omega)]
  have hlen : (s.buffer.take (s.buffer.getD 1 0 + 2)).length < 4 := by
    rw [List.length_take]; omega
  unfold parse_frame
  rw [if_pos hlen]

theorem C10_witness :
    read_loop {initState with buffer := [200, 0, 5, 6]} =
      ({initState with buffer := [5, 6]}, true) :=
  C10_tiny_frame {initState with buffer := [200, 0, 5, 6]} (by decide) (by decide) (by decide)

set_option maxRecDepth 40000 in
/-- Claim C3, counterexample: a single read_frame call on a well-formed
LINK_STATISTICS frame (address 0xC8, length 12, correct CRC 62) whose payload
byte 2 is 200 leaves link_quality = 200 > 100, refuting the [0, 100]
invariant claimed by the spec. -/
theorem C3_counterexample :
    (read_frame [200, 12, 0x14, 0, 0, 200, 0, 0, 0, 0, 0, 0, 0, 62] initState).1.link_quality
        = 200 ∧
      ¬ (read_frame [200, 12, 0x14, 0, 0, 200, 0, 0, 0, 0, 0, 0, 0, 62]
          initState).1.link_quality ≤ 100 := by
  decide

set_option maxRecDepth 40000 in
/-- Claim C7, counterexample: feeding the whitelist-free noise [1, 1, 1, 1]
and draining leaves the buffer at [1, 1, 1], not empty -- the scan loop stops
as soon as fewer than 4 bytes remain, so the buffer is never drained to
empty as the claim states. -/
theorem C7_counterexample :
    (∀ b ∈ ([1, 1, 1, 1] : List Nat), b ∉ whitelist) ∧
      (drainAll (feed [1, 1, 1, 1] initState)).buffer = [1, 1, 1] ∧
      (drainAll (feed [1, 1, 1, 1] initState)).buffer ≠ [] := by
  decide

set_option maxRecDepth 40000 in
/-- Claim C8, counterexample: a well-formed LINK_STATISTICS frame with
payload byte 0 equal to 200 leaves rssi_1 = 200; the two's-complement
reinterpretation of 200 is -56, so the stored value is not the signed
reinterpretation claimed (and lies outside [-128, 127]). -/
theorem C8_counterexample :
    (read_frame [200, 12, 0x14, 200, 0, 0, 0, 0, 0, 0, 0, 0, 0, 22] initState).1.rssi_1 = 200 ∧
      toSigned8 200 = -56 ∧
      ((read_frame [200, 12, 0x14, 200, 0, 0, 0, 0, 0, 0, 0, 0, 0, 22]
          initState).1.rssi_1 : Int) ≠ toSigned8 200 := by
  decide

set_option maxRecDepth 40000 in
/-- Claim C9, counterexample: the well-formed LINK_STATISTICS frame with
exactly the 7-byte payload [50, 48, 75, 0xF6, 1, 2, 20] (address 0xC8,
length 9, correct CRC 4) passes the CRC check (frame_count = 1,
error_count = 0), but the link-statistics decoder requires at least 10
payload bytes and skips it, so link_quality stays 0 rather than
becoming 75. -/
theorem C9_counterexample :
    (drainAll (feed [200, 9, 0x14, 50, 48, 75, 246, 1, 2, 20, 4] initState)).frame_count = 1 ∧
      (drainAll (feed [200, 9, 0x14, 50, 48, 75, 246, 1, 2, 20, 4] initState)).error_count = 0 ∧
      (drainAll (feed [200, 9, 0x14, 50, 48, 75, 246, 1, 2, 20, 4] initState)).link_quality = 0 ∧
      ¬ (drainAll (feed [200, 9, 0x14, 50, 48, 75, 246, 1, 2, 20, 4]
          initState)).link_quality = 75 := by
  decide

set_option maxRecDepth 40000 in
/-- Claim C9, amended: padding the payload [50, 48, 75, 0xF6, 1, 2, 20] with
three zero bytes to the 10-byte minimum (declared length 12, CRC 115) makes
the end-to-end scenario hold: after draining, link_quality = 75 and
snr = -10 = toSigned8 0xF6, with payload bytes 0-6 stored positionally in
rssi_1, rssi_2, link_quality, snr, active_antenna, rf_mode, tx_power, and
the frame counted once with no error. -/
theorem C9_padded_link_stats :
    (drainAll (feed [200, 12, 0x14, 50, 48, 75, 246, 1, 2, 20, 0, 0, 0, 115]
        initState)).link_quality = 75 ∧
      (drainAll (feed [200, 12, 0x14, 50, 48, 75, 246, 1, 2, 20, 0, 0, 0, 115]
        initState)).snr = -10 ∧
      (drainAll (feed [200, 12, 0x14, 50, 48, 75, 246, 1, 2, 20, 0, 0, 0, 115]
        initState)).rssi_1 = 50 ∧
      (drainAll (feed [200, 12, 0x14, 50, 48, 75, 246, 1, 2, 20, 0, 0, 0, 115]
        initState)).rssi_2 = 48 ∧
      (drainAll (feed [200, 12, 0x14, 50, 48, 75, 246, 1, 2, 20, 0, 0, 0, 115]
        initState)).active_antenna = 1 ∧
      (drainAll (feed [200, 12, 0x14, 50, 48, 75, 246, 1, 2, 20, 0, 0, 0, 115]
        initState)).rf_mode = 2 ∧
      (drainAll (feed [200, 12, 0x14, 50, 48, 75, 246, 1, 2, 20, 0, 0, 0, 115]
        initState)).tx_power = 20 ∧
      (drainAll (feed [200, 12, 0x14, 50, 48, 75, 246, 1, 2, 20, 0, 0, 0, 115]
        initState)).frame_count = 1 ∧
      (drainAll (feed [200, 12, 0x14, 50, 48, 75, 246, 1, 2, 20, 0, 0, 0, 115]
        initState)).error_count = 0 := by
  decide

lemma getD_le_bound (l : List Nat) (i d m : Nat) (h : ∀ b ∈ l, b ≤ m) (hd : d ≤ m) :
    l.getD i d ≤ m := by
  rw [List.getD_eq_getElem?_getD]
  cases hg : l[i]? with
  | none => simpa using hd
  | some a =>
    have ha : a ∈ l := by
      have := List.getElem?_eq_some_iff.mp hg
      rcases this with ⟨hlt, hEq⟩
      exact hEq ▸ List.getElem_mem hlt
    simpa using h a ha

/-- Claim C8, amended: after decoding a LINK_STATISTICS payload of at least
10 bytes (all bytes ≤ 255), the stored rssi_1 and rssi_2 are the raw
unsigned payload bytes 0 and 1, in [0, 255]; no two's-complement
reinterpretation is applied to them (only snr, byte 3, is reinterpreted). -/
theorem C8_rssi_raw (payload : List Nat) (s : CRSFState) (h10 : 10 ≤ payload.length)
    (hb : ∀ b ∈ payload, b ≤ 255) :
    (parse_link_statistics payload s).rssi_1 = payload.getD 0 0 ∧
      (parse_link_statistics payload s).rssi_2 = payload.getD 1 0 ∧
      (parse_link_statistics payload s).rssi_1 ≤ 255 ∧
      (parse_link_statistics payload s).rssi_2 ≤ 255 := by
  unfold parse_link_statistics
  rw [if_neg (by omega)]
  exact ⟨rfl, rfl, getD_le_bound payload 0 0 255 hb (by omega),
    getD_le_bound payload 1 0 255 hb (by omega)⟩

theorem C8_witness :
    (parse_link_statistics [1, 2, 3, 4, 5, 6, 7, 8, 9, 10] initState).rssi_1 = 1 ∧
      (parse_link_statistics [1, 2, 3, 4, 5, 6, 7, 8, 9, 10] initState).rssi_2 = 2 ∧
      (parse_link_statistics [1, 2, 3, 4, 5, 6, 7, 8, 9, 10] initState).rssi_1 ≤ 255 ∧
      (parse_link_statistics [1, 2, 3, 4, 5, 6, 7, 8, 9, 10] initState).rssi_2 ≤ 255 :=
  C8_rssi_raw [1, 2, 3, 4, 5, 6, 7, 8, 9, 10] initState (by decide) (by decide)

lemma read_loop_preserves_aux (P : CRSFState → Prop)
    (hpop : ∀ s : CRSFState, P s → P {s with buffer := s.buffer.tail})
    (hext : ∀ (s : CRSFState) (k : Nat), P s →
      P (parse_frame (s.buffer.take k) {s with buffer := s.buffer.drop k})) :
    ∀ (n : Nat) (s : CRSFState), s.buffer.length ≤ n → P s → P (read_loop s).1 := by
  intro n
  induction n with
  | zero =>
    intro s hle hP
    rw [read_loop_of_short s (by omega)]
    exact hP
  | succ n ih =>
    intro s hle hP
    rw [read_loop_eq]
    by_cases h4 : 4 ≤ s.buffer.length
    · rw [if_pos h4]
      by_cases hw : s.buffer.getD 0 0 ∈ whitelist
      · rw [if_pos hw]
        by_cases hl : 64 < s.buffer.getD 1 0
        · rw [if_pos hl]
          exact ih _ (by simp [List.length_tail]; omega) (hpop s hP)
        · rw [if_neg hl]
          by_cases hs : s.buffer.length < s.buffer.getD 1 0 + 2
          · rw [if_pos hs]
            exact hP
          · rw [if_neg hs]
            exact hext s _ hP
      · rw [if_neg hw]
        exact ih _ (by simp [List.length_tail]; omega) (hpop s hP)
    · rw [if_neg h4]
      exact hP

lemma read_loop_preserves (P : CRSFState → Prop)
    (hpop : ∀ s : CRSFState, P s → P {s with buffer := s.buffer.tail})
    (hext : ∀ (s : CRSFState) (k : Nat), P s →
      P (parse_frame (s.buffer.take k) {s with buffer := s.buffer.drop k}))
    (s : CRSFState) (hP : P s) : P (read_loop s).1 :=
  read_loop_preserves_aux P hpop hext s.buffer.length s le_rfl hP

lemma parse_rc_channels_link_quality (p : List Nat) (t : CRSFState) :
    (parse_rc_channels p t).link_quality = t.link_quality := by
  unfold parse_rc_channels
  split <;> rfl

lemma parse_link_statistics_link_quality_le (p : List Nat) (t : CRSFState)
    (hp : ∀ b ∈ p, b ≤ 255) (ht : t.link_quality ≤ 255) :
    (parse_link_statistics p t).link_quality ≤ 255 := by
  unfold parse_link_statistics
  split
  · exact ht
  · exact getD_le_bound p 2 0 255 hp (by omega)

lemma parse_frame_link_quality_le (f : List Nat) (t : CRSFState)
    (hf : ∀ b ∈ f, b ≤ 255) (ht : t.link_quality ≤ 255) :
    (parse_frame f t).link_quality ≤ 255 := by
  have hpay : ∀ b ∈ (f.drop 3).dropLast, b ≤ 255 := fun b hb =>
    hf b (List.drop_subset 3 f (List.dropLast_subset (f.drop 3) hb))
  unfold parse_frame
  split
  · exact ht
  · split
    · exact ht
    · split
      · rw [parse_rc_channels_link_quality]
        exact ht
      · split
        · exact parse_link_statistics_link_quality_le _ _ hpay ht
        · exact ht

lemma read_loop_LqInv (s : CRSFState) (h : LqInv s) : LqInv (read_loop s).1 := by
  refine read_loop_preserves LqInv ?_ ?_ s h
  · rintro t ⟨hb, hq⟩
    exact ⟨fun b hb2 => hb b (List.tail_subset t.buffer hb2), hq⟩
  · rintro t k ⟨hb, hq⟩
    constructor
    · rw [parse_frame_buffer]
      exact fun b hb2 => hb b (List.drop_subset k t.buffer hb2)
    · exact parse_frame_link_quality_le _ _
        (fun b hb2 => hb b (List.take_subset k t.buffer hb2)) hq

lemma read_frame_LqInv (data : List Nat) (s : CRSFState)
    (hd : ∀ b ∈ data, b ≤ 255) (h : LqInv s) : LqInv (read_frame data s).1 := by
  refine read_loop_LqInv (feed data s) ⟨?_, h.2⟩
  intro b hb
  rcases List.mem_append.mp hb with hb | hb
  · exact h.1 b hb
  · exact hd b hb

/-- Claim C3, amended: starting from a freshly constructed decoder, after
every sequence of read_frame calls whose input bytes are bytes (≤ 255, true
of anything a serial read delivers), link_quality lies in [0, 255] -- the
code stores payload byte 2 unclamped, so the tight bound is 255, not 100. -/
theorem C3_link_quality_byte_bounded (chunks : List (List Nat))
    (hb : ∀ c ∈ chunks, ∀ b ∈ c, b ≤ 255) :
    (runCalls chunks initState).link_quality ≤ 255 := by
  suffices h : ∀ s : CRSFState, LqInv s → LqInv (runCalls chunks s) by
    exact (h initState ⟨by simp [initState], by simp [initState]⟩).2
  induction chunks with
  | nil => exact fun s hs => hs
  | cons c cs ih =>
    intro s hs
    have hc : ∀ b ∈ c, b ≤ 255 := hb c (List.mem_cons_self c cs)
    have hcs : ∀ c2 ∈ cs, ∀ b ∈ c2, b ≤ 255 := fun c2 h2 => hb c2 (List.mem_cons_of_mem c h2)
    exact (ih hcs) _ (read_frame_LqInv c s hc hs)

theorem C3_witness :
    (runCalls [[200, 12, 0x14, 0, 0, 200, 0, 0, 0, 0, 0, 0, 0, 62]]
      initState).link_quality ≤ 255 :=
  C3_link_quality_byte_bounded [[200, 12, 0x14, 0, 0, 200, 0, 0, 0, 0, 0, 0, 0, 62]]
    (by decide)

lemma parse_rc_channels_ChInv (p : List Nat) (t : CRSFState) (h : ChInv t) :
    ChInv (parse_rc_channels p t) := by
  unfold parse_rc_channels
  split
  · exact h
  · constructor
    · simp
    · intro v hv
      rw [List.mem_map] at hv
      rcases hv with ⟨i, _, rfl⟩
      exact Nat.and_le_right

lemma parse_link_statistics_channels (p : List Nat) (t : CRSFState) :
    (parse_link_statistics p t).channels = t.channels := by
  unfold parse_link_statistics
  split <;> rfl

lemma parse_frame_ChInv (f : List Nat) (t : CRSFState) (h : ChInv t) :
    ChInv (parse_frame f t) := by
  unfold parse_frame
  split
  · exact h
  · split
    · exact h
    · split
      · exact parse_rc_channels_ChInv _ _ h
      · split
        · unfold ChInv
          rw [parse_link_statistics_channels]
          exact h
        · exact h

lemma read_loop_ChInv (s : CRSFState) (h : ChInv s) : ChInv (read_loop s).1 :=
  read_loop_preserves ChInv (fun _ ht => ht) (fun _ _ ht => parse_frame_ChInv _ _ ht) s h

/-- Claim C6: starting from a freshly constructed decoder, after every
sequence of read_frame calls on arbitrary input bytes, the channel array
still has its 16 entries and each value lies in [0, 2047] (values are
naturals masked with 0x7FF, hence never negative and at most 11 bits). -/
theorem C6_channels_bounded (chunks : List (List Nat)) :
    (runCalls chunks initState).channels.length = 16 ∧
      ∀ v ∈ (runCalls chunks initState).channels, v ≤ 2047 := by
  suffices h : ∀ s : CRSFState, ChInv s → ChInv (runCalls chunks s) by
    exact h initState ⟨by simp [initState], by simp [initState]⟩
  induction chunks with
  | nil => exact fun s hs => hs
  | cons c cs ih => exact fun s hs => ih _ (read_loop_ChInv (feed c s) hs)

theorem C6_witness :
    (0 : Nat) ∈ (runCalls [[1, 2, 3]] initState).channels ∧ (0 : Nat) ≤ 2047 :=
  ⟨by decide, (C6_channels_bounded [[1, 2, 3]]).2 0 (by decide)⟩

lemma getD_zero_mem (l : List Nat) (d : Nat) (h : l ≠ []) : l.getD 0 d ∈ l := by
  cases l with
  | nil => exact absurd rfl h
  | cons a t => exact List.mem_cons_self a t

lemma read_loop_noWL : ∀ (n : Nat) (s : CRSFState), s.buffer.length ≤ n →
    (∀ b ∈ s.buffer, b ∉ whitelist) →
    read_loop s = ({s with buffer := s.buffer.drop (s.buffer.length - 3)}, false) := by
  intro n
  induction n with
  | zero =>
    intro s hle hb
    have h0 : s.buffer.length = 0 := by omega
    rw [read_loop_of_short s (by omega), h0]
    rfl
  | succ n ih =>
    intro s hle hb
    by_cases h4 : 4 ≤ s.buffer.length
    · have hne : s.buffer ≠ [] := by
        intro h
        rw [h] at h4
        simp at h4
      have hw : s.buffer.getD 0 0 ∉ whitelist := hb _ (getD_zero_mem s.buffer 0 hne)
      rw [read_loop_eq, if_pos h4, if_neg hw]
      have htl : ∀ b ∈ ({s with buffer := s.buffer.tail} : CRSFState).buffer, b ∉ whitelist :=
        fun b hb2 => hb b (List.tail_subset s.buffer hb2)
      rw [ih _ (by simp [List.length_tail]; omega) htl]
      have hdrop : s.buffer.tail.drop (s.buffer.tail.length - 3) =
          s.buffer.drop (s.buffer.length - 3) := by
        rw [← List.drop_one, List.drop_drop, List.length_drop]
        congr 1
        omega
      rw [Prod.mk.injEq]
      constructor
      · rw [hdrop]
      · rfl
    · have h0 : s.buffer.length - 3 = 0 := by omega
      rw [read_loop_of_short s (by omega), h0]
      rfl

/-- Claim C7, amended: for an input stream containing no whitelisted address
byte, repeatedly calling read_frame until no further progress drains the
buffer down to its final at-most-3 bytes (exactly `input.drop
(input.length - 3)`; the loop needs 4 buffered bytes to continue), one
discarded byte per step, and leaves frame_count = 0 and error_count = 0.
The claimed fully-empty buffer is refuted by `C7_counterexample`. -/
theorem C7_noise_drains (input : List Nat) (h : ∀ b ∈ input, b ∉ whitelist) :
    (drainAll (feed input initState)).buffer = input.drop (input.length - 3) ∧
      (drainAll (feed input initState)).buffer.length ≤ 3 ∧
      (drainAll (feed input initState)).frame_count = 0 ∧
      (drainAll (feed input initState)).error_count = 0 := by
  have hbuf : (feed input initState).buffer = input := rfl
  have hnw : ∀ b ∈ (feed input initState).buffer, b ∉ whitelist := by
    rw [hbuf]; exact h
  have hrl := read_loop_noWL (feed input initState).buffer.length _ le_rfl hnw
  rw [drainAll_eq, hrl]
  simp only [if_neg (by simp : ¬ (false = true))]
  refine ⟨by rw [hbuf], ?_, rfl, rfl⟩
  simp only [hbuf, List.length_drop]
  omega

theorem C7_witness :
    (drainAll (feed [5, 6, 7, 8, 9] initState)).buffer = [7, 8, 9] ∧
      (drainAll (feed [5, 6, 7, 8, 9] initState)).buffer.length ≤ 3 ∧
      (drainAll (feed [5, 6, 7, 8, 9] initState)).frame_count = 0 ∧
      (drainAll (feed [5, 6, 7, 8, 9] initState)).error_count = 0 :=
  C7_noise_drains [5, 6, 7, 8, 9] (by decide)

lemma length_leBytesOfNat : ∀ (k n : Nat), (leBytesOfNat k n).length = k := by
  intro k
  induction k with
  | zero => intro n; rfl
  | succ k ih =>
    intro n
    simp [leBytesOfNat, ih]

lemma mod_mul_decomp (n a b : Nat) (ha : 0 < a) (hb : 0 < b) :
    n % (a * b) = n % a + a * ((n / a) % b) := by
  have hq : n / a % b < b := Nat.mod_lt _ hb
  have hr : n % a < a := Nat.mod_lt _ ha
  have hsplit : n = a * b * (n / a / b) + (a * (n / a % b) + n % a) := by
    have h1 : a * (n / a) + n % a = n := Nat.div_add_mod n a
    have h2 : b * (n / a / b) + n / a % b = n / a := Nat.div_add_mod (n / a) b
    calc n = a * (n / a) + n % a := h1.symm
    _ = a * (b * (n / a / b) + n / a % b) + n % a := by rw [h2]
    _ = a * b * (n / a / b) + (a * (n / a % b) + n % a) := by ring
  have hlt : a * (n / a % b) + n % a < a * b := by
    calc a * (n / a % b) + n % a < a * (n / a % b) + a := by omega
    _ = a * (n / a % b + 1) := by ring
    _ ≤ a * b := Nat.mul_le_mul_left a (by omega)
  calc n % (a * b) = (a * b * (n / a / b) + (a * (n / a % b) + n % a)) % (a * b) := by
        rw [← hsplit]
  _ = (a * (n / a % b) + n % a + a * b * (n / a / b)) % (a * b) := by ring_nf
  _ = (a * (n / a % b) + n % a) % (a * b) := by rw [Nat.add_mul_mod_self_left]
  _ = a * (n / a % b) + n % a := Nat.mod_eq_of_lt hlt
  _ = n % a + a * (n / a % b) := by ring

lemma lebytes_leBytesOfNat : ∀ (k n : Nat), lebytes (leBytesOfNat k n) = n % 2 ^ (8 * k) := by
  intro k
  induction k with
  | zero =>
    intro n
    simp [leBytesOfNat, lebytes, Nat.mod_one]
  | succ k ih =>
    intro n
    have hand : n &&& 255 = n % 256 := Nat.and_pow_two_sub_one_eq_mod n 8
    have hshift : n >>> 8 = n / 256 := Nat.shiftRight_eq_div_pow n 8
    have hpow : (2 : Nat) ^ (8 * (k + 1)) = 256 * 2 ^ (8 * k) := by
      rw [show 8 * (k + 1) = 8 + 8 * k by ring, pow_add]
      norm_num
    calc lebytes (leBytesOfNat (k + 1) n)
        = (n &&& 255) + 256 * lebytes (leBytesOfNat k (n >>> 8)) := rfl
    _ = n % 256 + 256 * ((n / 256) % 2 ^ (8 * k)) := by rw [hand, ih, hshift]
    _ = n % (256 * 2 ^ (8 * k)) := (mod_mul_decomp n 256 (2 ^ (8 * k)) (by omega)
          (Nat.pos_pow_of_pos _ (by omega))).symm
    _ = n % 2 ^ (8 * (k + 1)) := by rw [hpow]

lemma packChannels_lt : ∀ (vals : List Nat), (∀ v ∈ vals, v ≤ 2047) →
    packChannels vals < 2048 ^ vals.length := by
  intro vals
  induction vals with
  | nil => intro _; simp [packChannels]
  | cons v vs ih =>
    intro h
    have hv : v ≤ 2047 := h v (List.mem_cons_self v vs)
    have hvs : packChannels vs < 2048 ^ vs.length :=
      ih (fun w hw => h w (List.mem_cons_of_mem v hw))
    have hstep : 2048 * (packChannels vs + 1) ≤ 2048 * 2048 ^ vs.length :=
      Nat.mul_le_mul_left 2048 (by omega)
    have hexp : (2048 : Nat) ^ (v :: vs).length = 2048 ^ vs.length * 2048 := by
      rw [List.length_cons, pow_succ]
    have hpack : packChannels (v :: vs) = v + 2048 * packChannels vs := rfl
    omega

lemma packChannels_extract : ∀ (vals : List Nat), (∀ v ∈ vals, v ≤ 2047) →
    ∀ i, i < vals.length → packChannels vals / 2048 ^ i % 2048 = vals.getD i 0 := by
  intro vals
  induction vals with
  | nil => intro _ i hi; simp at hi
  | cons v vs ih =>
    intro h i hi
    have hv : v ≤ 2047 := h v (List.mem_cons_self v vs)
    have hpack : packChannels (v :: vs) = v + 2048 * packChannels vs := rfl
    cases i with
    | zero =>
      rw [hpack]
      simp only [pow_zero, Nat.div_one]
      rw [Nat.add_mul_mod_self_left, Nat.mod_eq_of_lt (by omega)]
      rfl
    | succ i =>
      rw [hpack, pow_succ', ← Nat.div_div_eq_div_mul 
        (v + 2048 * packChannels vs) 2048 (2048 ^ i)]
      rw [Nat.add_mul_div_left v (packChannels vs) (by omega : (0 : Nat) < 2048)]
      rw [Nat.div_eq_of_lt (by omega : v < 2048)]
      simp only [Nat.zero_add]
      exact ih (fun w hw => h w (List.mem_cons_of_mem v hw)) i (by simpa using hi)

/-- Claim C4: for every list of 16 values each in [0, 2047], packing them
into 22 bytes in the CRSF little-endian bit layout (value i occupying 11
bits starting at bit offset i * 11) and running the RC-channels payload
decoder on that payload stores exactly the original 16 values in the
channel array (round-trip), from any decoder state. -/
theorem C4_pack_roundtrip (vals : List Nat) (s : CRSFState) (h16 : vals.length = 16)
    (hv : ∀ v ∈ vals, v ≤ 2047) :
    (parse_rc_channels (leBytesOfNat 22 (packChannels vals)) s).channels = vals := by
  unfold parse_rc_channels
  rw [if_neg (by rw [length_leBytesOfNat]; omega)]
  have htake : (leBytesOfNat 22 (packChannels vals)).take 22 = leBytesOfNat 22 (packChannels vals) :=
    List.take_of_length_le (by rw [length_leBytesOfNat])
  have hlt : packChannels vals < 2 ^ 176 := by
    have := packChannels_lt vals hv
    rw [h16] at this
    calc packChannels vals < 2048 ^ 16 := this
    _ = 2 ^ 176 := by rw [show (2048 : Nat) = 2 ^ 11 from rfl, ← pow_mul]
  have hbits : lebytes ((leBytesOfNat 22 (packChannels vals)).take 22) = packChannels vals := by
    rw [htake, lebytes_leBytesOfNat]
    exact Nat.mod_eq_of_lt (by simpa using hlt)
  simp only [hbits]
  clear hbits htake
  refine List.ext_getElem (by simp [h16]) ?_
  intro i h1 h2
  have hi : i < 16 := by simpa using h1
  rw [List.getElem_map, List.getElem_range]
  have hand : packChannels vals >>> (i * 11) &&& 2047 =
      packChannels vals / 2048 ^ i % 2048 := by
    rw [Nat.and_pow_two_sub_one_eq_mod _ 11, Nat.shiftRight_eq_div_pow]
    congr 2
    rw [show (2048 : Nat) = 2 ^ 11 from rfl, ← pow_mul, Nat.mul_comm]
  rw [hand, packChannels_extract vals hv i (by omega),
    List.getD_eq_getElem vals 0 (by omega)]

theorem C4_witness :
    (parse_rc_channels
        (leBytesOfNat 22 (packChannels
          [992, 172, 1811, 0, 2047, 1, 2, 3, 4, 5, 6, 7, 8, 9, 10, 11]))
        initState).channels =
      [992, 172, 1811, 0, 2047, 1, 2, 3, 4, 5, 6, 7, 8, 9, 10, 11] :=
  C4_pack_roundtrip [992, 172, 1811, 0, 2047, 1, 2, 3, 4, 5, 6, 7, 8, 9, 10, 11]
    initState (by decide) (by decide)

lemma feed_nil (s : CRSFState) : feed [] s = s := by
  unfold feed
  rw [List.append_nil]

lemma feed_feed (a b : List Nat) (s : CRSFState) : feed b (feed a s) = feed (a ++ b) s := by
  unfold feed
  rw [List.append_assoc]

lemma getD_append_left (l e : List Nat) (i d : Nat) (h : i < l.length) :
    (l ++ e).getD i d = l.getD i d := by
  simp [List.getD_eq_getElem?_getD, List.getElem?_append, h]

lemma tail_append_of_ne_nil (l e : List Nat) (h : l ≠ []) :
    (l ++ e).tail = l.tail ++ e := by
  cases l with
  | nil => exact absurd rfl h
  | cons a t => rfl

lemma feed_parse_frame (e f : List Nat) (t : CRSFState) (b : List Nat) :
    feed e (parse_frame f {t with buffer := b}) = parse_frame f {t with buffer := b ++ e} := by
  rw [parse_frame_buf_comm f t b, parse_frame_buf_comm f t (b ++ e)]
  rfl

lemma read_loop_feed_aux : ∀ (n : Nat) (s : CRSFState) (e : List Nat), s.buffer.length ≤ n →
    read_loop (feed e s) =
      if (read_loop s).2 = true then (feed e (read_loop s).1, true)
      else read_loop (feed e (read_loop s).1) := by
  intro n
  induction n with
  | zero =>
    intro s e hle
    rw [read_loop_of_short s (by omega)]
    simp
  | succ n ih =>
    intro s e hle
    by_cases h4 : 4 ≤ s.buffer.length
    · have hne : s.buffer ≠ [] := by
        intro h
        rw [h] at h4
        simp at h4
      have hfb : (feed e s).buffer = s.buffer ++ e := rfl
      have hlen4 : 4 ≤ (s.buffer ++ e).length := by
        rw [List.length_append]; omega
      have hg0 : (s.buffer ++ e).getD 0 0 = s.buffer.getD 0 0 :=
        getD_append_left s.buffer e 0 0 (by omega)
      have hg1 : (s.buffer ++ e).getD 1 0 = s.buffer.getD 1 0 :=
        getD_append_left s.buffer e 1 0 (by omega)
      rw [read_loop_eq s]
      by_cases hw : s.buffer.getD 0 0 ∈ whitelist
      · by_cases hl : 64 < s.buffer.getD 1 0
        · -- one byte is skipped on both sides
          rw [if_pos h4, if_pos hw, if_pos hl]
          rw [read_loop_eq (feed e s), hfb, if_pos hlen4, hg0, hg1, if_pos hw, if_pos hl,
            tail_append_of_ne_nil s.buffer e hne]
          exact ih {s with buffer := s.buffer.tail} e (by simp [List.length_tail]; omega)
        · by_cases hs : s.buffer.length < s.buffer.getD 1 0 + 2
          · -- s is waiting for more data; both sides scan the appended buffer
            rw [if_pos h4, if_pos hw, if_neg hl, if_pos hs]
            simp
          · -- s extracts a frame; the appended buffer extracts the same frame
            rw [if_pos h4, if_pos hw, if_neg hl, if_neg hs]
            rw [read_loop_eq (feed e s), hfb, if_pos hlen4, hg0, hg1, if_pos hw, if_neg hl,
              if_neg (by rw [List.length_append]; omega),
              List.take_append_of_le_length (by omega),
              List.drop_append_of_le_length (by omega)]
            simp only [Prod.snd, if_pos rfl, Prod.fst]
            rw [feed_parse_frame, if_pos trivial]
            rfl
      · -- resync skip on both sides
        rw [if_pos h4, if_neg hw]
        rw [read_loop_eq (feed e s), hfb, if_pos hlen4, hg0, if_neg hw,
          tail_append_of_ne_nil s.buffer e hne]
        exact ih {s with buffer := s.buffer.tail} e (by simp [List.length_tail]; omega)
    · rw [read_loop_of_short s (by omega)]
      simp

lemma read_loop_feed (s : CRSFState) (e : List Nat) :
    read_loop (feed e s) =
      if (read_loop s).2 = true then (feed e (read_loop s).1, true)
      else read_loop (feed e (read_loop s).1) :=
  read_loop_feed_aux s.buffer.length s e le_rfl

lemma drainAll_of_true (s : CRSFState) (h : (read_loop s).2 = true) :
    drainAll s = drainAll (read_loop s).1 := by
  rw [drainAll_eq, if_pos h]

lemma drainAll_of_false (s : CRSFState) (h : (read_loop s).2 = false) :
    drainAll s = (read_loop s).1 := by
  rw [drainAll_eq, if_neg (by simp [h])]

lemma drainAll_congr (a b : CRSFState) (h : read_loop a = read_loop b) :
    drainAll a = drainAll b := by
  conv_lhs => rw [drainAll_eq]
  conv_rhs => rw [drainAll_eq]
  rw [h]

lemma drainAll_feed_aux : ∀ (n : Nat) (s : CRSFState) (e : List Nat), s.buffer.length ≤ n →
    drainAll (feed e s) = drainAll (feed e (drainAll s)) := by
  intro n
  induction n with
  | zero =>
    intro s e hle
    have h := read_loop_of_short s (by omega)
    have hfalse : (read_loop s).2 = false := by rw [h]
    rw [drainAll_of_false s hfalse, h]
  | succ n ih =>
    intro s e hle
    by_cases ht : (read_loop s).2 = true
    · have h1 : read_loop (feed e s) = (feed e (read_loop s).1, true) := by
        rw [read_loop_feed s e, if_pos ht]
      have h2 : drainAll (feed e s) = drainAll (feed e (read_loop s).1) := by
        rw [drainAll_of_true (feed e s) (by rw [h1]), h1]
      have hsh := read_loop_shrink s ht
      rw [h2, ih (read_loop s).1 e (by omega), ← drainAll_of_true s ht]
    · have ht2 : (read_loop s).2 = false := by
        cases h : (read_loop s).2
        · rfl
        · exact absurd h ht
      have h1 : read_loop (feed e s) = read_loop (feed e (read_loop s).1) := by
        rw [read_loop_feed s e, if_neg (by rw [ht2]; simp)]
      rw [drainAll_congr _ _ h1, drainAll_of_false s ht2]

lemma drainAll_feed (s : CRSFState) (e : List Nat) :
    drainAll (feed e s) = drainAll (feed e (drainAll s)) :=
  drainAll_feed_aux s.buffer.length s e le_rfl

lemma runChunks_eq : ∀ (chunks : List (List Nat)) (s : CRSFState),
    chunks.foldl (fun t c => drainAll (feed c t)) (drainAll s) =
      drainAll (feed chunks.flatten s) := by
  intro chunks
  induction chunks with
  | nil =>
    intro s
    rw [List.foldl_nil, List.flatten_nil, feed_nil]
  | cons c cs ih =>
    intro s
    rw [List.foldl_cons, ← drainAll_feed s c, ih (feed c s), feed_feed, List.flatten_cons]

/-- Claim C5: feeding a byte sequence chunk by chunk, draining with
read_frame calls between chunks, yields exactly the same final channel
values, link-statistics fields, frame_count and error_count as appending
all the bytes at once and then draining. -/
theorem C5_chunking_invariance (chunks : List (List Nat)) :
    (chunks.foldl (fun t c => drainAll (feed c t)) initState).channels =
        (drainAll (feed chunks.flatten initState)).channels ∧
      (chunks.foldl (fun t c => drainAll (feed c t)) initState).rssi_1 =
        (drainAll (feed chunks.flatten initState)).rssi_1 ∧
      (chunks.foldl (fun t c => drainAll (feed c t)) initState).rssi_2 =
        (drainAll (feed chunks.flatten initState)).rssi_2 ∧
      (chunks.foldl (fun t c => drainAll (feed c t)) initState).link_quality =
        (drainAll (feed chunks.flatten initState)).link_quality ∧
      (chunks.foldl (fun t c => drainAll (feed c t)) initState).snr =
        (drainAll (feed chunks.flatten initState)).snr ∧
      (chunks.foldl (fun t c => drainAll (feed c t)) initState).active_antenna =
        (drainAll (feed chunks.flatten initState)).active_antenna ∧
      (chunks.foldl (fun t c => drainAll (feed c t)) initState).rf_mode =
        (drainAll (feed chunks.flatten initState)).rf_mode ∧
      (chunks.foldl (fun t c => drainAll (feed c t)) initState).tx_power =
        (drainAll (feed chunks.flatten initState)).tx_power ∧
      (chunks.foldl (fun t c => drainAll (feed c t)) initState).frame_count =
        (drainAll (feed chunks.flatten initState)).frame_count ∧
      (chunks.foldl (fun t c => drainAll (feed c t)) initState).error_count =
        (drainAll (feed chunks.flatten initState)).error_count := by
  have h0 : drainAll initState = initState := rfl
  have h := runChunks_eq chunks initState
  rw [h0] at h
  rw [h]
  exact ⟨rfl, rfl, rfl, rfl, rfl, rfl, rfl, rfl, rfl, rfl⟩
